import Mathlib

/-!
Shallow embedding of `src/index.next.js` (bianco-events): a registry of
DOM event listeners over the two native primitives
`addEventListener` / `removeEventListener`.

Modelling choices:
* DOM nodes and callback functions only matter up to identity (`===`),
  so both are modelled as `Nat`.
* The module-level `WeakMap` `listeners` and the plain objects stored in
  it are modelled as association lists (`wmGet`/`wmSet`, `objGet`/`objSet`/
  `objDelete`); JS objects have unique keys, so `objDelete` (the model of
  `Reflect.deleteProperty`) removes every pair with the given key.
* The options argument is a reference into an explicit heap of options
  objects (`St.heap`), because `once` mutates the caller's object in
  place via `Object.assign`; `none` models passing `undefined`.
* Every native call `el[method](...)` is recorded in a log (`St.log`),
  with a snapshot of the dereferenced options object taken at call time.
* State is threaded explicitly; JS in-place array/object mutation becomes
  a pure read-modify-write of the association lists.
-/

namespace Bianco

/-- A callback function value, identified (as JS `===` does) by identity. -/
abbrev Cb := Nat

/-- An event-listener options object.  The source only ever touches the
`once` property (`Object.assign(options, { once: true })`); all other
properties are opaque to it and summarised by `other`. -/
structure Opts where
  once : Bool
  other : Nat
deriving DecidableEq, Repr

/-- The inner object stored per node: event name ↦ array of callbacks
(`Object.create(null)` with array values). `Option Cb` because JS would
happily push an `undefined` callback. -/
abbrev Obj := List (String × List (Option Cb))

/-- The module-level `WeakMap`, keyed by node identity. -/
abbrev Registry := List (Nat × Obj)

/-- One native call `el[method](...)` as observed by the platform:
the method name, the event name, the callback argument, the literal
`false` capture argument when present, the options reference when
present, and a call-time snapshot of the dereferenced options object. -/
structure NativeCall where
  method : String
  event : String
  cb : Option Cb
  capture : Option Bool
  opts : Option Nat
  optsVal : Option Opts
deriving DecidableEq, Repr

/-- The full mutable state: the `listeners` WeakMap, the heap of options
objects, and the log of native calls issued so far. -/
structure St where
  registry : Registry
  heap : Nat → Opts
  log : List NativeCall

/-- The initial state: empty `listeners` WeakMap, no native call issued. -/
def initSt : St := ⟨[], fun _ => ⟨false, 0⟩, []⟩

/-- `WeakMap.prototype.get`: first (only) binding of the key, if any. -/
def wmGet : Registry → Nat → Option Obj
  | [], _ => none
  | (k, v) :: rest, el => if k = el then some v else wmGet rest el

/-- `WeakMap.prototype.set`: overwrite the existing binding in place, or
append a fresh one. -/
def wmSet : Registry → Nat → Obj → Registry
  | [], el, v => [(el, v)]
  | (k, w) :: rest, el, v =>
    if k = el then (k, v) :: rest else (k, w) :: wmSet rest el v

/-- `WeakMap.prototype.has`: a key is present iff `get` finds it. -/
def wmHas (m : Registry) (el : Nat) : Bool := (wmGet m el).isSome

/-- Property read `o[key]`: `none` models `undefined`. -/
def objGet : Obj → String → Option (List (Option Cb))
  | [], _ => none
  | (k, v) :: rest, key => if k = key then some v else objGet rest key

/-- Property write `o[key] = v`: overwrite in place or append. -/
def objSet : Obj → String → List (Option Cb) → Obj
  | [], key, v => [(key, v)]
  | (k, w) :: rest, key, v =>
    if k = key then (k, v) :: rest else (k, w) :: objSet rest key v

/-- `Reflect.deleteProperty(o, key)`: drop the key's binding. -/
def objDelete : Obj → String → Obj
  | [], _ => []
  | (k, w) :: rest, key =>
    if k = key then objDelete rest key else (k, w) :: objDelete rest key

/-- The character class of the regex `/\s/` in JS: space, `\t`, `\n`,
vertical tab, form feed, `\r`, NBSP, Ogham space mark, the U+2000–200A
range, line/paragraph separator, narrow no-break space, medium
mathematical space, ideographic space, and BOM. -/
def isWs (c : Char) : Bool :=
  let v := c.val.toNat
  v == 0x20 || v == 0x09 || v == 0x0a || v == 0x0b || v == 0x0c ||
  v == 0x0d || v == 0xa0 || v == 0x1680 ||
  (decide (0x2000 ≤ v) && decide (v ≤ 0x200a)) ||
  v == 0x2028 || v == 0x2029 || v == 0x202f || v == 0x205f ||
  v == 0x3000 || v == 0xfeff

/-- `String.prototype.split` with a single-character regex: every
delimiter character ends the current token, so consecutive, leading or
trailing delimiters produce empty tokens, and `"".split` yields `[""]`. -/
def splitChars : List Char → List Char → List String
  | [], acc => [String.mk acc.reverse]
  | c :: cs, acc =>
    if isWs c then String.mk acc.reverse :: splitChars cs []
    else splitChars cs (c :: acc)

/-- `const split = list => list.split(/\s/)` -/
def split (list : String) : List String := splitChars list.data []

/-- `const isAdd = methodName => methodName === 'addEventListener'` -/
def isAdd (methodName : String) : Bool := methodName == "addEventListener"

/-- `Array.prototype.indexOf` helper: index of the first `===`-equal
element, if any. -/
def jsIndexOfAux : List (Option Cb) → Option Cb → Nat → Option Nat
  | [], _, _ => none
  | a :: rest, x, i => if a = x then some i else jsIndexOfAux rest x (i + 1)

/-- `Array.prototype.indexOf`: first index of the element, `-1` if absent. -/
def jsIndexOf (l : List (Option Cb)) (x : Option Cb) : Int :=
  match jsIndexOfAux l x 0 with
  | some i => (i : Int)
  | none => -1

/-- `Array.prototype.splice(i, 1)`: with `i < 0` the start index is
`max(length + i, 0)` (so `splice(-1, 1)` deletes the LAST element of a
non-empty array), otherwise `min(i, length)`; one element at most is
deleted there. -/
def spliceRemoveOne (l : List (Option Cb)) (i : Int) : List (Option Cb) :=
  let start : Nat := if i < 0 then (i + l.length).toNat else min i.toNat l.length
  l.take start ++ l.drop (start + 1)

/-- `function manageListeners(el, eventName, cb, method, options)`:
read (and lazily create, via `elListeners[eventName] =
elListeners[eventName] || []`) the callback array for the event, issue
the native call(s), then mutate the tracked structure: push on add,
`splice(indexOf(cb), 1)` on single-callback remove, delete the property
on bulk remove. -/
def manageListeners (el : Nat) (eventName : String) (cb : Option Cb)
    (method : String) (optsRef : Option Nat) (s : St) : St :=
  let elListeners := (wmGet s.registry el).getD []
  let eventListeners := (objGet elListeners eventName).getD []
  let elListeners := objSet elListeners eventName eventListeners
  let newLog :=
    if isAdd method || cb.isSome then
      [⟨method, eventName, cb, some false, optsRef, optsRef.map s.heap⟩]
    else
      eventListeners.map fun lcb => ⟨method, eventName, lcb, none, none, none⟩
  let elListeners :=
    if isAdd method then
      objSet elListeners eventName (eventListeners ++ [cb])
    else if cb.isSome then
      objSet elListeners eventName
        (spliceRemoveOne eventListeners (jsIndexOf eventListeners cb))
    else
      objDelete elListeners eventName
  { s with registry := wmSet s.registry el elListeners,
           log := s.log ++ newLog }

/-- The guard at the top of `manageEvents`:
`if (!listeners.has(el)) { listeners.set(el, Object.create(null)) }`. -/
def ensureEl (el : Nat) (s : St) : St :=
  if wmHas s.registry el then s
  else { s with registry := wmSet s.registry el [] }

/-- `function manageEvents(el, evList, cb, method, options)`: ensure the
node has an entry in the `listeners` WeakMap, then handle every
whitespace-separated event token. -/
def manageEvents (el : Nat) (evList : String) (cb : Option Cb)
    (method : String) (optsRef : Option Nat) (s : St) : St :=
  (split evList).foldl (fun st e => manageListeners el e cb method optsRef st)
    (ensureEl el s)

/-- `function add(el, evList, cb, options)` — returns the node. -/
def add (el : Nat) (evList : String) (cb : Option Cb) (optsRef : Option Nat)
    (s : St) : St × Nat :=
  (manageEvents el evList cb "addEventListener" optsRef s, el)

/-- `Object.assign(options, { once: true })` on the dereferenced object:
only the `once` property is overwritten. -/
def setOnce (o : Opts) : Opts := { o with once := true }

/-- `function once(el, evList, cb, options)`:
`options = Object.assign(options, { once: true })` mutates the caller's
options object in place and keeps the same reference; when `options` is
`undefined`, `Object.assign` throws a `TypeError` (modelled as `none`). -/
def once (el : Nat) (evList : String) (cb : Option Cb) (optsRef : Option Nat)
    (s : St) : Option (St × Nat) :=
  match optsRef with
  | none => none
  | some r =>
    let s := { s with heap := Function.update s.heap r (setOnce (s.heap r)) }
    some (manageEvents el evList cb "addEventListener" (some r) s, el)

/-- `function remove(el, evList, cb)` — the options argument of the
native call is `undefined`. -/
def remove (el : Nat) (evList : String) (cb : Option Cb) (s : St) : St × Nat :=
  (manageEvents el evList cb "removeEventListener" none s, el)

/-- The tracked callback array for a `(node, event name)` pair, `none`
when the event-name key is absent from the node's inner object. -/
def trackedKey (s : St) (el : Nat) (eventName : String) :
    Option (List (Option Cb)) :=
  objGet ((wmGet s.registry el).getD []) eventName

/-- The tracked callback sequence for a `(node, event name)` pair,
empty when untracked. -/
def tracked (s : St) (el : Nat) (eventName : String) : List (Option Cb) :=
  (trackedKey s el eventName).getD []

/-- Scenario shorthand: one `add` of a single callback, options omitted. -/
def addOp (el : Nat) (ev : String) (c : Cb) (s : St) : St :=
  (add el ev (some c) none s).1

/-- Scenario shorthand: one single-callback `remove`. -/
def removeOp (el : Nat) (ev : String) (c : Cb) (s : St) : St :=
  (remove el ev (some c) s).1

/-- Scenario shorthand: one bulk `remove` (callback omitted). -/
def removeAllOp (el : Nat) (ev : String) (s : St) : St :=
  (remove el ev none s).1

/-- How many native `removeEventListener` calls for this event name and
callback appear in a log. -/
def unregCalls (l : List NativeCall) (ev : String) (c : Cb) : Nat :=
  l.countP fun e =>
    decide (e.method = "removeEventListener" ∧ e.event = ev ∧ e.cb = some c)

/-- How many native `addEventListener` calls for this event name and
callback appear in a log. -/
def regCalls (l : List NativeCall) (ev : String) (c : Cb) : Nat :=
  l.countP fun e =>
    decide (e.method = "addEventListener" ∧ e.event = ev ∧ e.cb = some c)

/-! ### Helper lemmas about the association-list primitives -/

theorem wmGet_wmSet_self : ∀ (m : Registry) (k : Nat) (v : Obj),
    wmGet (wmSet m k v) k = some v
  | [], k, v => by simp [wmGet, wmSet]
  | (k', w) :: rest, k, v => by
    by_cases h : k' = k
    · simp [wmSet, wmGet, h]
    · simp [wmSet, wmGet, h, wmGet_wmSet_self rest k v]

theorem objGet_objSet_self : ∀ (o : Obj) (k : String) (v : List (Option Cb)),
    objGet (objSet o k v) k = some v
  | [], k, v => by simp [objGet, objSet]
  | (k', w) :: rest, k, v => by
    by_cases h : k' = k
    · simp [objSet, objGet, h]
    · simp [objSet, objGet, h, objGet_objSet_self rest k v]

theorem objGet_objDelete_self : ∀ (o : Obj) (k : String),
    objGet (objDelete o k) k = none
  | [], k => by simp [objGet, objDelete]
  | (k', w) :: rest, k => by
    by_cases h : k' = k
    · simp [objDelete, h, objGet_objDelete_self rest k]
    · simp [objDelete, objGet, h, objGet_objDelete_self rest k]

@[simp] theorem isAdd_addEventListener : isAdd "addEventListener" = true := rfl

@[simp] theorem isAdd_removeEventListener :
    isAdd "removeEventListener" = false := by decide

/-! ### Projection lemmas for the state transformers -/

theorem manageListeners_heap (el : Nat) (E : String) (cb : Option Cb)
    (m : String) (r : Option Nat) (s : St) :
    (manageListeners el E cb m r s).heap = s.heap := rfl

theorem manageListeners_present (el : Nat) (E : String) (cb : Option Cb)
    (m : String) (r : Option Nat) (s : St) :
    (wmGet (manageListeners el E cb m r s).registry el).isSome := by
  simp [manageListeners, wmGet_wmSet_self]

theorem foldl_manage_heap (el : Nat) (cb : Option Cb) (m : String)
    (r : Option Nat) :
    ∀ (ts : List String) (s : St),
      (ts.foldl (fun st e => manageListeners el e cb m r st) s).heap = s.heap
  | [], _ => rfl
  | e :: ts, s => by
    rw [List.foldl_cons, foldl_manage_heap el cb m r ts,
      manageListeners_heap]

theorem foldl_manage_present (el : Nat) (cb : Option Cb) (m : String)
    (r : Option Nat) :
    ∀ (ts : List String) (s : St), (wmGet s.registry el).isSome →
      (wmGet ((ts.foldl (fun st e => manageListeners el e cb m r st)
        s)).registry el).isSome
  | [], _, h => h
  | e :: ts, s, _ => by
    rw [List.foldl_cons]
    exact foldl_manage_present el cb m r ts _
      (manageListeners_present el e cb m r s)

theorem ensureEl_heap (el : Nat) (s : St) : (ensureEl el s).heap = s.heap := by
  unfold ensureEl
  by_cases h : wmHas s.registry el <;> simp [h]

theorem ensureEl_log (el : Nat) (s : St) : (ensureEl el s).log = s.log := by
  unfold ensureEl
  by_cases h : wmHas s.registry el <;> simp [h]

theorem ensureEl_present (el : Nat) (s : St) :
    (wmGet (ensureEl el s).registry el).isSome := by
  unfold ensureEl
  by_cases h : wmHas s.registry el
  · rw [if_pos h]
    exact h
  · simp [h, wmGet_wmSet_self]

theorem tracked_ensureEl (el : Nat) (E : String) (s : St) :
    tracked (ensureEl el s) el E = tracked s el E := by
  unfold ensureEl
  by_cases h : wmHas s.registry el
  · simp [h]
  · have hg : wmGet s.registry el = none := by
      rcases hx : wmGet s.registry el with _ | o
      · rfl
      · exact absurd (by simp [wmHas, hx]) h
    simp [h, tracked, trackedKey, wmGet_wmSet_self, hg, objGet]

theorem manageEvents_heap (el : Nat) (ev : String) (cb : Option Cb)
    (m : String) (r : Option Nat) (s : St) :
    (manageEvents el ev cb m r s).heap = s.heap := by
  rw [manageEvents, foldl_manage_heap, ensureEl_heap]

theorem manageEvents_present (el : Nat) (ev : String) (cb : Option Cb)
    (m : String) (r : Option Nat) (s : St) :
    (wmGet (manageEvents el ev cb m r s).registry el).isSome := by
  rw [manageEvents]
  exact foldl_manage_present el cb m r _ _ (ensureEl_present el s)

theorem manageEvents_single (el : Nat) (E : String) (cb : Option Cb)
    (m : String) (r : Option Nat) (s : St) (hE : split E = [E]) :
    manageEvents el E cb m r s = manageListeners el E cb m r (ensureEl el s) := by
  rw [manageEvents, hE, List.foldl_cons, List.foldl_nil]

theorem tracked_manageListeners_add (el : Nat) (E : String) (c : Option Cb)
    (r : Option Nat) (s : St) :
    tracked (manageListeners el E c "addEventListener" r s) el E
      = tracked s el E ++ [c] := by
  simp [manageListeners, tracked, trackedKey, wmGet_wmSet_self,
    objGet_objSet_self]

theorem log_manageListeners_withcb (el : Nat) (E : String) (c : Option Cb)
    (m : String) (r : Option Nat) (s : St) (h : (isAdd m || c.isSome) = true) :
    (manageListeners el E c m r s).log
      = s.log ++ [⟨m, E, c, some false, r, r.map s.heap⟩] := by
  simp [manageListeners, h]

theorem trackedKey_manageListeners_bulk (el : Nat) (E : String)
    (r : Option Nat) (s : St) :
    trackedKey (manageListeners el E none "removeEventListener" r s) el E
      = none := by
  simp [manageListeners, trackedKey, wmGet_wmSet_self, objGet_objDelete_self]

/-! ### Evaluation lemmas for `split` on the event strings used below -/

theorem split_click : split "click" = ["click"] := by decide

theorem split_click_keydown : split "click keydown" = ["click", "keydown"] := by
  decide

theorem split_click2_keydown :
    split "click  keydown" = ["click", "", "keydown"] := by decide

theorem splitChars_length : ∀ (l acc : List Char),
    (splitChars l acc).length = l.countP isWs + 1
  | [], _ => rfl
  | c :: cs, acc => by
    by_cases h : isWs c
    · simp [splitChars, h, splitChars_length cs [], List.countP_cons]
    · simp [splitChars, h, splitChars_length cs (c :: acc), List.countP_cons]

/-! ### The claims -/

/-- C1: the claim says removing a never-added callback leaves the tracked
sequence unchanged.  The code instead runs
`eventListeners.splice(eventListeners.indexOf(cb), 1)`; `indexOf` yields
`-1` and `splice(-1, 1)` deletes the LAST element, so after
`add(0, "click", cb0); remove(0, "click", cb1)` the tracked sequence for
`(0, "click")` is empty, not `[cb0]` — while the native unregister call
with `cb1` is indeed issued. -/
theorem C1_remove_missing_cb_drops_last :
    tracked (addOp 0 "click" 0 initSt) 0 "click" = [some 0]
      ∧ (removeOp 0 "click" 1 (addOp 0 "click" 0 initSt)).log
          = (addOp 0 "click" 0 initSt).log
            ++ [⟨"removeEventListener", "click", some 1, some false, none, none⟩]
      ∧ tracked (removeOp 0 "click" 1 (addOp 0 "click" 0 initSt)) 0 "click"
          = [] :=
  ⟨by decide, by decide, by decide⟩

/-- C2: the claim says the options argument of `once` is optional and
`once(N, E, cb)` succeeds.  The code runs
`Object.assign(options, { once: true })`, which throws a `TypeError`
when `options` is `undefined`, so `once` with options omitted never
returns the node. -/
theorem C2_once_without_options_throws (s : St) (N : Nat) (E : String)
    (c : Option Cb) :
    once N E c none s = none := rfl

/-- C3 counterexample: after `add(0, "click", cb); remove(0, "click", cb)`
the inner mapping of node 0 still contains the key `"click"`, mapped to
the empty sequence — an empty placeholder survives the operation,
contradicting the claimed invariant. -/
theorem C3_counterexample_empty_placeholder :
    trackedKey (removeOp 0 "click" 0 (addOp 0 "click" 0 initSt)) 0 "click"
      = some [] := by decide

/-- C3 amended: for a single-token event name, bulk removal does delete
the event key entirely, and `add` / `once` always leave the touched key
mapped to a sequence extended by the callback (hence non-empty); but a
single-callback removal never deletes the key, so an event key can be
left mapped to an empty sequence. -/
theorem C3_amended_registry_shape (s : St) (N : Nat) (E : String) (c : Cb)
    (r : Option Nat) (r0 : Nat) (hE : split E = [E]) :
    trackedKey ((remove N E none s).1) N E = none
      ∧ tracked ((add N E (some c) r s).1) N E = tracked s N E ++ [some c]
      ∧ ((once N E (some c) (some r0) s).map fun p => tracked p.1 N E)
          = some (tracked s N E ++ [some c]) := by
  refine ⟨?_, ?_, ?_⟩
  · show trackedKey (manageEvents N E none "removeEventListener" none s) N E
      = none
    rw [manageEvents_single N E none "removeEventListener" none s hE,
      trackedKey_manageListeners_bulk]
  · show tracked (manageEvents N E (some c) "addEventListener" r s) N E = _
    rw [manageEvents_single N E (some c) "addEventListener" r s hE,
      tracked_manageListeners_add, tracked_ensureEl]
  · simp only [once, Option.map_some']
    rw [manageEvents_single N E (some c) "addEventListener" (some r0) _ hE,
      tracked_manageListeners_add, tracked_ensureEl]
    rfl

/-- Witness for C3's amended statement at a concrete input. -/
theorem C3_amended_witness :
    trackedKey ((remove 0 "click" none initSt).1) 0 "click" = none
      ∧ tracked ((add 0 "click" (some 0) none initSt).1) 0 "click"
          = tracked initSt 0 "click" ++ [some 0]
      ∧ ((once 0 "click" (some 0) (some 0) initSt).map fun p =>
            tracked p.1 0 "click")
          = some (tracked initSt 0 "click" ++ [some 0]) :=
  C3_amended_registry_shape initSt 0 "click" 0 none 0 (by decide)

/-- C4: `add(N, "click", cb1); add(N, "click", cb2); remove(N, "click")`
issues exactly one native unregister call for each of the two distinct
callbacks and deletes the `"click"` key from the tracked structure. -/
theorem C4_bulk_remove_unregisters_each (N c1 c2 : Nat) (h : c1 ≠ c2) :
    unregCalls (removeAllOp N "click"
        (addOp N "click" c2 (addOp N "click" c1 initSt))).log "click" c1 = 1
      ∧ unregCalls (removeAllOp N "click"
          (addOp N "click" c2 (addOp N "click" c1 initSt))).log "click" c2 = 1
      ∧ trackedKey (removeAllOp N "click"
          (addOp N "click" c2 (addOp N "click" c1 initSt))) N "click"
          = none := by
  have h2 : c2 ≠ c1 := h.symm
  simp [removeAllOp, addOp, add, remove, manageEvents, ensureEl,
    manageListeners, wmHas, wmGet, wmSet, objGet, objSet, objDelete,
    trackedKey, split_click, unregCalls, List.countP_cons, initSt, h, h2]

/-- Witness for C4 at a concrete input. -/
theorem C4_witness :
    unregCalls (removeAllOp 0 "click"
        (addOp 0 "click" 1 (addOp 0 "click" 0 initSt))).log "click" 0 = 1
      ∧ unregCalls (removeAllOp 0 "click"
          (addOp 0 "click" 1 (addOp 0 "click" 0 initSt))).log "click" 1 = 1
      ∧ trackedKey (removeAllOp 0 "click"
          (addOp 0 "click" 1 (addOp 0 "click" 0 initSt))) 0 "click" = none :=
  C4_bulk_remove_unregisters_each 0 0 1 (by decide)

/-- C5: adding the same callback twice yields two native registrations
and two tracked entries; a single `remove` then deletes exactly the
first matching occurrence, leaving one tracked entry. -/
theorem C5_duplicate_add_single_remove (N c : Nat) :
    regCalls (addOp N "click" c (addOp N "click" c initSt)).log "click" c = 2
      ∧ tracked (addOp N "click" c (addOp N "click" c initSt)) N "click"
          = [some c, some c]
      ∧ tracked (removeOp N "click" c
          (addOp N "click" c (addOp N "click" c initSt))) N "click"
          = [some c] := by
  simp [addOp, removeOp, add, remove, manageEvents, ensureEl,
    manageListeners, wmHas, wmGet, wmSet, objGet, objSet, tracked,
    trackedKey, split_click, regCalls, List.countP_cons, jsIndexOf,
    jsIndexOfAux, spliceRemoveOne, initSt]

/-- C6: `add(N, "click keydown", cb)` issues one native registration per
event name and tracks the callback separately under each name; the
subsequent `remove(N, "click", cb)` issues a single native call (for
`"click"` only) and leaves the `"keydown"` tracked sequence unchanged. -/
theorem C6_multi_event_fanout (N c : Nat) :
    (addOp N "click keydown" c initSt).log
        = [⟨"addEventListener", "click", some c, some false, none, none⟩,
           ⟨"addEventListener", "keydown", some c, some false, none, none⟩]
      ∧ tracked (addOp N "click keydown" c initSt) N "click" = [some c]
      ∧ tracked (addOp N "click keydown" c initSt) N "keydown" = [some c]
      ∧ (removeOp N "click" c (addOp N "click keydown" c initSt)).log
          = (addOp N "click keydown" c initSt).log
            ++ [⟨"removeEventListener", "click", some c, some false, none, none⟩]
      ∧ tracked (removeOp N "click" c (addOp N "click keydown" c initSt))
          N "keydown" = [some c]
      ∧ tracked (removeOp N "click" c (addOp N "click keydown" c initSt))
          N "click" = [] := by
  simp [addOp, removeOp, add, remove, manageEvents, ensureEl,
    manageListeners, wmHas, wmGet, wmSet, objGet, objSet, tracked,
    trackedKey, split_click, split_click_keydown, jsIndexOf, jsIndexOfAux,
    spliceRemoveOne, initSt]

/-- C7: one `add` with a single (whitespace-free) event name issues
exactly one native registration with that event name and callback,
appends the callback once to the tracked sequence (creating the entry if
absent), and returns the node. -/
theorem C7_add_registers_exactly_once (s : St) (N : Nat) (E : String)
    (c : Cb) (r : Option Nat) (hE : split E = [E]) :
    ((add N E (some c) r s).1).log
        = s.log ++ [⟨"addEventListener", E, some c, some false, r,
            r.map s.heap⟩]
      ∧ tracked ((add N E (some c) r s).1) N E = tracked s N E ++ [some c]
      ∧ (add N E (some c) r s).2 = N := by
  refine ⟨?_, ?_, rfl⟩
  · show (manageEvents N E (some c) "addEventListener" r s).log = _
    rw [manageEvents_single N E (some c) "addEventListener" r s hE,
      log_manageListeners_withcb _ _ _ _ _ _ (by simp),
      ensureEl_log, ensureEl_heap]
  · show tracked (manageEvents N E (some c) "addEventListener" r s) N E = _
    rw [manageEvents_single N E (some c) "addEventListener" r s hE,
      tracked_manageListeners_add, tracked_ensureEl]

/-- Witness for C7 at a concrete input. -/
theorem C7_witness :
    ((add 0 "click" (some 0) none initSt).1).log
        = initSt.log ++ [⟨"addEventListener", "click", some 0, some false,
            none, none⟩]
      ∧ tracked ((add 0 "click" (some 0) none initSt).1) 0 "click"
          = tracked initSt 0 "click" ++ [some 0]
      ∧ (add 0 "click" (some 0) none initSt).2 = 0 :=
  C7_add_registers_exactly_once initSt 0 "click" 0 none (by decide)

/-- C8: on a node with no tracked entry, each of the three operations
creates an entry in the registry as a side effect of the lookup — after
the call the node is present even though nothing was ever registered. -/
theorem C8_lookup_creates_node_entry (s : St) (N : Nat) (E : String)
    (c : Option Cb) (r : Option Nat) (r0 : Nat)
    (_h : wmGet s.registry N = none) :
    (wmGet ((remove N E c s).1).registry N).isSome
      ∧ (wmGet ((add N E c r s).1).registry N).isSome
      ∧ ((once N E c (some r0) s).map fun p =>
          (wmGet p.1.registry N).isSome) = some true := by
  refine ⟨manageEvents_present N E c "removeEventListener" none s,
    manageEvents_present N E c "addEventListener" r s, ?_⟩
  simp only [once, Option.map_some']
  rw [manageEvents_present]

/-- Witness for C8 at a concrete input. -/
theorem C8_witness :
    (wmGet ((remove 0 "click" none initSt).1).registry 0).isSome
      ∧ (wmGet ((add 0 "click" none none initSt).1).registry 0).isSome
      ∧ ((once 0 "click" none (some 0) initSt).map fun p =>
          (wmGet p.1.registry 0).isSome) = some true :=
  C8_lookup_creates_node_entry initSt 0 "click" none none 0 (by decide)

/-- C9: `once` mutates the caller-supplied options object in place: after
the call the object behind the caller's reference has its `once`
property set to `true`, and the native registration is issued with that
same reference, not with a fresh object. -/
theorem C9_once_mutates_caller_options (s : St) (N : Nat) (E : String)
    (c : Option Cb) (r : Nat) :
    ((once N E c (some r) s).map fun p => p.1.heap r)
        = some (setOnce (s.heap r))
      ∧ ((once N E c (some r) s).map fun p => (p.1.heap r).once)
          = some true
      ∧ ((once N "click" c (some r) initSt).map fun p =>
          p.1.log.map NativeCall.opts) = some [some r] := by
  refine ⟨?_, ?_, ?_⟩
  · simp [once, manageEvents_heap, Function.update_same]
  · simp [once, manageEvents_heap, Function.update_same, setOnce]
  · simp [once, manageEvents, ensureEl, manageListeners, split_click,
      wmHas, wmGet, wmSet, objGet, objSet, initSt]

/-- C10: the event string is split on every single whitespace character
(token count = whitespace count + 1, so runs of whitespace produce empty
tokens), and each empty token is processed as an event name: `add` with
`"click  keydown"` issues a native registration for the empty event name
and creates a tracked sequence keyed by the empty string. -/
theorem C10_empty_tokens_processed (N c : Nat) :
    (∀ l : List Char, (split (String.mk l)).length = l.countP isWs + 1)
      ∧ split "click  keydown" = ["click", "", "keydown"]
      ∧ (addOp N "click  keydown" c initSt).log
          = [⟨"addEventListener", "click", some c, some false, none, none⟩,
             ⟨"addEventListener", "", some c, some false, none, none⟩,
             ⟨"addEventListener", "keydown", some c, some false, none, none⟩]
      ∧ trackedKey (addOp N "click  keydown" c initSt) N "" = some [some c] := by
  refine ⟨fun l => splitChars_length l [], by decide, ?_, ?_⟩
  · simp [addOp, add, manageEvents, ensureEl, manageListeners, wmHas,
      wmGet, wmSet, objGet, objSet, split_click2_keydown, initSt]
  · simp [addOp, add, manageEvents, ensureEl, manageListeners, wmHas,
      wmGet, wmSet, objGet, objSet, trackedKey, split_click2_keydown, initSt]

end Bianco
